import Mathlib

/-!
Verification of the terraform-provider-atlassian core (API client +
team-resource reconciler) against its natural-language specification.

The Go source is shallowly embedded: each client operation's local
validation and HTTP-status interpretation becomes a pure Lean function of
the inputs the Go code inspects (request arguments, response status code,
status text, raw body, decoded body); the reconciler verbs become
functions from the plan/state data and the client results to the list of
client calls issued plus the diagnostics produced.  Error values are the
exact strings the Go code formats with fmt.Errorf, because the reconciler
distinguishes the not-found condition by comparing error strings.

The repository contains two schema generations: the current
OpenAPI-aligned one (resource_team.go, client.go in part_004,
client_team_members.go in part_005, client_team_operations.go) and a
superseded legacy one (part_003 client, part_009 resource).  Definitions
named `legacy*` embed the legacy generation; unprefixed names embed the
current one.
-/

namespace Atlassian

/-- A team member (current generation): an account identifier only.
From `TeamMember` in client.go (part_004). -/
structure TeamMember where
  accountID : String
deriving DecidableEq, Repr

/-- An Atlassian team, current generation. From `Team` in client.go
(part_004); the `userPermissions` and `members` response fields are not
inspected by any embedded logic and are omitted. -/
structure Team where
  teamID : String
  displayName : String
  description : String
  teamType : String
  organizationId : String
  creatorId : String
  state : String
deriving DecidableEq, Repr

/-- Payload of the create-team POST. From `CreateTeamRequest` in
client.go (part_004). -/
structure CreateTeamRequest where
  displayName : String
  description : String
  teamType : String
  siteId : String
deriving DecidableEq, Repr

/-- Payload of the update-team PATCH. From `UpdateTeamRequest` in
client.go (part_004): the struct has exactly two fields, serialized as
`displayName` and `description`, both tagged `omitempty`. -/
structure UpdateTeamRequest where
  displayName : String
  description : String
deriving DecidableEq, Repr

/-- The JSON keys actually present in the serialized `UpdateTeamRequest`
body, honouring Go's `omitempty` (a zero-value string field is dropped).
Key order follows struct field order, as encoding/json does. -/
def UpdateTeamRequest.serializedKeys (r : UpdateTeamRequest) : List String :=
  (if r.displayName = "" then [] else ["displayName"]) ++
    (if r.description = "" then [] else ["description"])

/-- The closed list of team types accepted by the `team_type` schema
validator: `stringvalidator.OneOf(...)` in resource_team.go. -/
def teamTypeOneOf : List String :=
  ["OPEN", "MEMBER_INVITE", "EXTERNAL", "ORG_ADMIN_MANAGED"]

/-- Whether the schema's OneOf validator accepts a team-type value: the
framework validator accepts exactly the listed strings. -/
def teamTypeValid (s : String) : Bool :=
  teamTypeOneOf.contains s

/-- Outcome of `DeleteTeam` (client.go, part_004) as a function of the
HTTP response: 404 is treated as success (team already gone); otherwise
any status other than 204 and 200 is an error carrying status and body;
200/204 succeed.  `none` is success, `some e` the error string. -/
def deleteTeam (status : Nat) (statusText body : String) : Option String :=
  if status = 404 then none
  else if ¬ (status = 204) ∧ ¬ (status = 200) then
    some ("API error deleting team: " ++ statusText ++ " - " ++ body)
  else none

/-- The `size` query parameter sent by `GetTeams`
(client_team_operations.go): present only when the requested size is
positive, and clamped to 300 before sending. -/
def getTeamsSizeParam (size : Int) : Option Int :=
  if size > 0 then some (if size > 300 then 300 else size) else none

/-- The `first` field of the membership fetch payload sent by
`FetchTeamMembers` (client_team_members.go, part_005): set only when
`0 < first ≤ 50`; otherwise the field stays at its zero value and
`omitempty` drops it from the wire payload. -/
def fetchMembersFirstParam (first : Int) : Option Int :=
  if 0 < first ∧ first ≤ 50 then some first else none

/-- The page size the members endpoint effectively uses: the sent
`first` when present, else the API's documented default of 50 (comment
on `PublicApiMembershipFetchPayload.First`: "Maximum 50, default 50"). -/
def fetchMembersEffectiveFirst (first : Int) : Int :=
  (fetchMembersFirstParam first).getD 50

/-- Outcome of `GetTeam` (client.go, part_004) as a function of what the
Go code inspects.  `transport` is the error from `makeRequest` when the
request never yielded a status code (wrapped as
"error getting team: ...").  Otherwise a 404 status yields the
distinguished "team not found: {id}" error, any other non-200 status the
generic API error carrying status text and body, and 200 the decoded
team. -/
def getTeam (teamID : String) (transport : Option String) (status : Nat)
    (statusText body : String) (team : Team) : Except String Team :=
  match transport with
  | some m => .error ("error getting team: " ++ m)
  | none =>
    if status = 404 then .error ("team not found: " ++ teamID)
    else if ¬ status = 200 then
      .error ("API error getting team: " ++ statusText ++ " - " ++ body)
    else .ok team

/-- What the reconciler's Read did with the tracked resource: the fields
of `resource.ReadResponse` the embedded logic drives. -/
structure ReadOutcome where
  removedFromState : Bool
  errors : List String
  stateSaved : Bool
deriving DecidableEq, Repr

/-- `TeamResource.Read` (resource_team.go) after the client call: when
`GetTeam` fails with exactly the string "team not found: {id}" the
resource is removed from state with no diagnostic; any other error is
reported via AddError and the resource is kept; on success the model is
refreshed and saved. -/
def readTeam (id : String) (getResult : Except String Team) : ReadOutcome :=
  match getResult with
  | .error e =>
    if e = "team not found: " ++ id then ⟨true, [], false⟩
    else ⟨false, ["Unable to read team, got error: " ++ e], false⟩
  | .ok _ => ⟨false, [], true⟩

/-- Per-team coded error of a bulk response. From
`PublicApiBulkTeamOperationError` (client_team_operations.go). -/
structure PublicApiBulkTeamOperationError where
  code : String
  message : String
  teamID : String
deriving DecidableEq, Repr

/-- Bulk archive/unarchive response body. From
`PublicApiBulkOperationResponse` (client_team_operations.go). -/
structure PublicApiBulkOperationResponse where
  errors : List PublicApiBulkTeamOperationError
  successfulTeamIds : List String
deriving DecidableEq, Repr

/-- Local validation stage of `ArchiveTeams`
(client_team_operations.go): an id list of length 0 or above 100 is
rejected with an error before `makeRequest` is reached; otherwise the
request payload (the id list) goes out on the wire. -/
def archiveTeamsRequest (teamIDs : List String) : Except String (List String) :=
  if teamIDs.length = 0 ∨ teamIDs.length > 100 then
    .error ("teamIDs must contain between 1 and 100 items, got " ++
      toString teamIDs.length)
  else .ok teamIDs

/-- Local validation stage of `UnarchiveTeams`
(client_team_operations.go): same 1–100 guard as `ArchiveTeams`. -/
def unarchiveTeamsRequest (teamIDs : List String) : Except String (List String) :=
  if teamIDs.length = 0 ∨ teamIDs.length > 100 then
    .error ("teamIDs must contain between 1 and 100 items, got " ++
      toString teamIDs.length)
  else .ok teamIDs

/-- Response stage of `ArchiveTeams` (client_team_operations.go): any
status other than 200 is an error with status text and raw body; a 200
returns the decoded body as-is — the per-team `errors` list is never
inspected and never turned into a call failure. -/
def archiveTeamsResponse (status : Nat) (statusText rawBody : String)
    (body : PublicApiBulkOperationResponse) :
    Except String PublicApiBulkOperationResponse :=
  if ¬ status = 200 then
    .error ("API error archiving teams: " ++ statusText ++ " - " ++ rawBody)
  else .ok body

/-- Per-member coded error. From `PublicApiMembershipCodedError`
(client_team_members.go, part_005). -/
structure PublicApiMembershipCodedError where
  accountID : String
  code : String
  message : String
deriving DecidableEq, Repr

/-- Add-members response body. From `PublicApiMembershipAddResponse`
(client_team_members.go, part_005). -/
structure PublicApiMembershipAddResponse where
  errors : List PublicApiMembershipCodedError
  members : List TeamMember
deriving DecidableEq, Repr

/-- Request stage of `AddTeamMembers` (client_team_members.go,
part_005): the function performs no local size or uniqueness check at
all — every member list, including an empty one or one longer than 50,
is wrapped in a `PublicApiMembershipAddPayload` and handed straight to
`makeRequestWithHeaders`. -/
def addTeamMembersRequest (members : List TeamMember) :
    Except String (List TeamMember) :=
  .ok members

/-- Request stage of `RemoveTeamMembers` (client_team_members.go,
part_005): likewise, no local validation before the request goes out. -/
def removeTeamMembersRequest (members : List TeamMember) :
    Except String (List TeamMember) :=
  .ok members

/-- Response stage of `AddTeamMembers` (client_team_members.go,
part_005): non-200 is an error; a 200 returns the decoded body with its
coded-error list intact, never a failure of the whole call. -/
def addTeamMembersResponse (status : Nat) (statusText rawBody : String)
    (body : PublicApiMembershipAddResponse) :
    Except String PublicApiMembershipAddResponse :=
  if ¬ status = 200 then
    .error ("API error adding team members: " ++ statusText ++ " - " ++ rawBody)
  else .ok body

/-- A client call issued by a reconciler verb.  Constructors cover both
generations: the current client (part_004/part_005) and the legacy
per-member client (part_003). -/
inductive ClientCall where
  | createTeam (req : CreateTeamRequest)
  | updateTeam (teamId : String) (req : UpdateTeamRequest)
  | addTeamMembers (teamId : String) (accountIds : List String)
  | removeTeamMembers (teamId : String) (accountIds : List String)
  | legacyCreateTeam (name description ty organization : String)
  | legacyGetTeamMembers (teamId : String)
  | legacyAddTeamMember (teamId accountId : String)
  | legacyRemoveTeamMember (teamId accountId : String)
deriving DecidableEq, Repr

/-- Whether a call touches team membership (either generation). -/
def ClientCall.isMemberCall : ClientCall → Bool
  | .addTeamMembers _ _ => true
  | .removeTeamMembers _ _ => true
  | .legacyAddTeamMember _ _ => true
  | .legacyRemoveTeamMember _ _ => true
  | _ => false

/-- The plan data the current-generation reconciler reads
(`TeamResourceModel`, resource_team.go), reduced to the fields its
verbs inspect.  `members` is `none` for a null/unknown set and
`some accountIds` otherwise. -/
structure TeamPlan where
  displayName : String
  description : String
  teamType : String
  siteId : String
  members : Option (List String)
deriving DecidableEq, Repr

/-- The client calls `TeamResource.Create` (resource_team.go) issues:
exactly one `CreateTeam` built from the plan.  The declared member set
is never sent to the API — the current Create issues no add-members
call, whatever the plan's membership. -/
def currentCreateCalls (plan : TeamPlan) : List ClientCall :=
  [ClientCall.createTeam
    ⟨plan.displayName, plan.description, plan.teamType, plan.siteId⟩]

/-- The client calls `TeamResource.Update` (resource_team.go) issues:
exactly one `UpdateTeam` whose payload holds the plan's display name and
description.  No membership fetch, add or remove call exists on this
path. -/
def currentUpdateCalls (plan : TeamPlan) (teamId : String) : List ClientCall :=
  [ClientCall.updateTeam teamId ⟨plan.displayName, plan.description⟩]

/-- Accounts the legacy `TeamResource.Update` (part_009) removes: it
builds `currentMemberMap` keyed by the remote members' account ids and
`newMemberMap` keyed by the declared ones, then calls
`RemoveTeamMember` for every current key absent from the declared map. -/
def legacyRemoveAccounts (declared current : List String) : Finset String :=
  current.toFinset.filter (fun a => a ∉ declared.toFinset)

/-- Accounts the legacy `TeamResource.Update` (part_009) adds: every
declared key absent from the current map gets an `AddTeamMember` call. -/
def legacyAddAccounts (declared current : List String) : Finset String :=
  declared.toFinset.filter (fun a => a ∉ current.toFinset)

/-- Outcome of the legacy `TeamResource.Create` (part_009): the calls
issued, the warning and error diagnostics, and whether the new resource
record was saved into state. -/
structure LegacyCreateOutcome where
  calls : List ClientCall
  warnings : List String
  fatalErrors : List String
  stateSaved : Bool
deriving DecidableEq, Repr

/-- The legacy plan data (`TeamResourceModel` in part_009) reduced to
what Create inspects. -/
structure LegacyTeamPlan where
  name : String
  description : String
  ty : String
  organization : String
  members : Option (List String)
deriving DecidableEq, Repr

/-- The legacy `TeamResource.Create` (part_009, lines 392–458).
`clientOrg` is the provider-level organization used when the plan leaves
its own blank; `createOk` is `some team-id` when `Client.CreateTeam`
succeeded and `none` when it errored; `addFails a = true` says the
`AddTeamMember` call for account `a` returns an error.  On create
failure the verb stops with a fatal diagnostic; on success, when the
member set is non-null, one `AddTeamMember` call is issued per declared
member and each failing one is reported with `AddWarning`, never
`AddError`, after which state is still saved. -/
def legacyCreate (clientOrg : String) (plan : LegacyTeamPlan)
    (createOk : Option String) (addFails : String → Bool) :
    LegacyCreateOutcome :=
  let org := if plan.organization = "" then clientOrg else plan.organization
  let createCall := ClientCall.legacyCreateTeam plan.name plan.description plan.ty org
  match createOk with
  | none => ⟨[createCall], [], ["Unable to create team, got error"], false⟩
  | some teamId =>
    match plan.members with
    | none => ⟨[createCall], [], [], true⟩
    | some ms =>
      ⟨createCall :: ms.map (fun a => ClientCall.legacyAddTeamMember teamId a),
       (ms.filter addFails).map
         (fun a => "Unable to add member " ++ a ++ " to team"),
       [], true⟩

/-! Helper lemmas: the generic API error strings a client operation
formats can never coincide with the distinguished not-found string the
reconciler compares against, whatever the interpolated status text, body
or identifier. -/

lemma apiGetError_ne_notFound (a b c : String) :
    ("API error getting team: " ++ a ++ " - " ++ b) ≠ ("team not found: " ++ c) := by
  intro h
  have h2 := congrArg String.data h
  rw [String.data_append, String.data_append, String.data_append,
    String.data_append] at h2
  simp [String.data] at h2

lemma transportGetError_ne_notFound (a b : String) :
    ("error getting team: " ++ a) ≠ ("team not found: " ++ b) := by
  intro h
  have h2 := congrArg String.data h
  rw [String.data_append, String.data_append] at h2
  simp [String.data] at h2

/-- C2: for every stored team identifier, when the Read operation's Get
call reports the distinguished not-found condition (HTTP 404), the
reconciler removes the resource from tracked state and reports no error;
for every other Get failure (any other non-200 status, or a transport
error) Read reports a fatal error and does not remove the resource. -/
theorem read_notfound_removes (id : String) (transport : Option String)
    (status : Nat) (statusText body : String) (team : Team) :
    (transport = none → status = 404 →
      readTeam id (getTeam id transport status statusText body team) =
        ⟨true, [], false⟩) ∧
    ((transport ≠ none ∨ (¬ status = 404 ∧ ¬ status = 200)) →
      (readTeam id (getTeam id transport status statusText body team)).removedFromState
        = false ∧
      (readTeam id (getTeam id transport status statusText body team)).errors ≠ []) := by
  constructor
  · rintro rfl rfl
    simp [getTeam, readTeam]
  · intro h
    match transport with
    | some m =>
      simp [getTeam, readTeam, if_neg (transportGetError_ne_notFound m id)]
    | none =>
      rcases h with h | ⟨h404, h200⟩
      · exact absurd rfl h
      · simp [getTeam, readTeam, h404, h200,
          if_neg (apiGetError_ne_notFound statusText body id)]

/-- Witness for C2 at concrete inputs: a 404 removes the resource
silently; a 500 keeps it and produces a diagnostic. -/
theorem read_notfound_removes_witness :
    readTeam "T1" (getTeam "T1" none 404 "404 Not Found" ""
      ⟨"T1", "n", "", "OPEN", "o", "c", "ACTIVE"⟩) = ⟨true, [], false⟩ ∧
    (readTeam "T1" (getTeam "T1" none 500 "500" ""
      ⟨"T1", "n", "", "OPEN", "o", "c", "ACTIVE"⟩)).removedFromState = false ∧
    (readTeam "T1" (getTeam "T1" none 500 "500" ""
      ⟨"T1", "n", "", "OPEN", "o", "c", "ACTIVE"⟩)).errors ≠ [] := by
  refine ⟨(read_notfound_removes "T1" none 404 "404 Not Found" ""
    ⟨"T1", "n", "", "OPEN", "o", "c", "ACTIVE"⟩).1 rfl rfl, ?_, ?_⟩
  · exact ((read_notfound_removes "T1" none 500 "500" ""
      ⟨"T1", "n", "", "OPEN", "o", "c", "ACTIVE"⟩).2
        (Or.inr ⟨by decide, by decide⟩)).1
  · exact ((read_notfound_removes "T1" none 500 "500" ""
      ⟨"T1", "n", "", "OPEN", "o", "c", "ACTIVE"⟩).2
        (Or.inr ⟨by decide, by decide⟩)).2

/-- C3 counterexample: the claim says a 410 Gone response makes Delete
succeed, but `DeleteTeam` only special-cases 404 — at status 410 it
returns the generic API error (while 404 is indeed success). -/
theorem delete_gone_errors :
    deleteTeam 410 "410 Gone" "" =
      some ("API error deleting team: " ++ "410 Gone" ++ " - " ++ "") ∧
    deleteTeam 404 "404 Not Found" "" = none := ⟨rfl, rfl⟩

/-- C3 amended: Delete succeeds exactly on statuses 200, 204 and 404
(already-gone is not an error), and every other status — including 410
Gone — produces an error. -/
theorem delete_success_statuses (status : Nat) (statusText body : String) :
    deleteTeam status statusText body = none ↔
      (status = 200 ∨ status = 204 ∨ status = 404) := by
  by_cases h404 : status = 404
  · simp [deleteTeam, h404]
  · by_cases h204 : status = 204
    · simp [deleteTeam, h404, h204]
    · by_cases h200 : status = 200
      · simp [deleteTeam, h404, h204, h200]
      · simp [deleteTeam, h404, h204, h200]

/-- C4 evaluation: the bulk archive/unarchive guard does reject 0 and
101 team ids locally, but `AddTeamMembers`/`RemoveTeamMembers` perform
no local size check at all — an empty or 51-element member list is
wrapped in a payload and sent on the wire. -/
theorem member_batch_size_not_enforced :
    archiveTeamsRequest [] =
      .error ("teamIDs must contain between 1 and 100 items, got 0") ∧
    archiveTeamsRequest (List.replicate 101 "t") =
      .error ("teamIDs must contain between 1 and 100 items, got 101") ∧
    unarchiveTeamsRequest [] =
      .error ("teamIDs must contain between 1 and 100 items, got 0") ∧
    addTeamMembersRequest [] = .ok [] ∧
    removeTeamMembersRequest (List.replicate 51 ⟨"a"⟩) =
      .ok (List.replicate 51 ⟨"a"⟩) := by
  refine ⟨rfl, ?_, rfl, rfl, rfl⟩
  rfl

/-- C5: a bulk or member call whose HTTP response has status 200 and
carries a non-empty success list alongside a non-empty coded-error list
is reported as an overall success carrying both lists intact — the
per-item errors never become a failure of the whole call. -/
theorem partial_failure_is_success (statusText rawBody : String)
    (body : PublicApiBulkOperationResponse)
    (mbody : PublicApiMembershipAddResponse)
    (_h1 : body.successfulTeamIds ≠ []) (_h2 : body.errors ≠ [])
    (_h3 : mbody.members ≠ []) (_h4 : mbody.errors ≠ []) :
    archiveTeamsResponse 200 statusText rawBody body = .ok body ∧
    addTeamMembersResponse 200 statusText rawBody mbody = .ok mbody := by
  exact ⟨by simp [archiveTeamsResponse], by simp [addTeamMembersResponse]⟩

/-- Witness for C5: two successes and one coded error still come back
as an overall success, for both the bulk and the member operation. -/
theorem partial_failure_is_success_witness :
    archiveTeamsResponse 200 "200 OK" ""
      ⟨[⟨"TEAM_NOT_FOUND", "gone", "T3"⟩], ["T1", "T2"]⟩ =
      .ok ⟨[⟨"TEAM_NOT_FOUND", "gone", "T3"⟩], ["T1", "T2"]⟩ ∧
    addTeamMembersResponse 200 "200 OK" ""
      ⟨[⟨"C", "INVALID", "m"⟩], [⟨"A"⟩, ⟨"B"⟩]⟩ =
      .ok ⟨[⟨"C", "INVALID", "m"⟩], [⟨"A"⟩, ⟨"B"⟩]⟩ := by
  exact partial_failure_is_success "200 OK" ""
    ⟨[⟨"TEAM_NOT_FOUND", "gone", "T3"⟩], ["T1", "T2"]⟩
    ⟨[⟨"C", "INVALID", "m"⟩], [⟨"A"⟩, ⟨"B"⟩]⟩
    (by decide) (by decide) (by decide) (by decide)

/-- C6: the serialized update payload only ever contains the
`displayName` and `description` keys — in particular never a team-type
or organization-id key — and the Update verb issues exactly one
`UpdateTeam` call built from those two plan fields. -/
theorem update_payload_keys (r : UpdateTeamRequest) :
    (∀ k ∈ r.serializedKeys, k = "displayName" ∨ k = "description") ∧
    "teamType" ∉ r.serializedKeys ∧
    "organizationId" ∉ r.serializedKeys := by
  by_cases h1 : r.displayName = "" <;> by_cases h2 : r.description = "" <;>
    simp [UpdateTeamRequest.serializedKeys, h1, h2]

/-- Witness for C6 at a concrete request. -/
theorem update_payload_keys_witness :
    "teamType" ∉ (UpdateTeamRequest.mk "n" "d").serializedKeys ∧
    "organizationId" ∉ (UpdateTeamRequest.mk "n" "d").serializedKeys :=
  ⟨(update_payload_keys ⟨"n", "d"⟩).2.1, (update_payload_keys ⟨"n", "d"⟩).2.2⟩

/-- C1 counterexample: with declared members D = {A, B} and last-known
remote members R = {A, C}, the claim demands an add call with payload
D\R = {B}; the current `TeamResource.Update` issues no membership call
at all, even though D\R is non-empty. -/
theorem update_membership_diff_cex :
    (currentUpdateCalls ⟨"Dev Team v2", "d", "OPEN", "", some ["A", "B"]⟩
      "T1").filter ClientCall.isMemberCall = [] ∧
    "B" ∈ ((["A", "B"].toFinset \ ["A", "C"].toFinset : Finset String)) := by
  refine ⟨rfl, ?_⟩
  decide

/-- C1 amended: in the legacy Update reconciliation (part_009), which is
the generation that reconciles membership, the set of accounts given an
add call equals D\R and the set given a remove call equals R\D
(comparing members by account identifier only, one call per member
rather than one batched call), and both sets are empty exactly when the
declared and remote account sets coincide.  The current Update issues no
membership calls. -/
theorem legacy_membership_diff (declared current : List String) :
    legacyAddAccounts declared current = declared.toFinset \ current.toFinset ∧
    legacyRemoveAccounts declared current = current.toFinset \ declared.toFinset ∧
    ((legacyAddAccounts declared current = ∅ ∧
      legacyRemoveAccounts declared current = ∅) ↔
      declared.toFinset = current.toFinset) := by
  have hadd : legacyAddAccounts declared current =
      declared.toFinset \ current.toFinset := by
    rw [legacyAddAccounts, Finset.sdiff_eq_filter]
  have hrem : legacyRemoveAccounts declared current =
      current.toFinset \ declared.toFinset := by
    rw [legacyRemoveAccounts, Finset.sdiff_eq_filter]
  refine ⟨hadd, hrem, ?_⟩
  rw [hadd, hrem]
  simp only [Finset.sdiff_eq_empty_iff_subset]
  constructor
  · rintro ⟨h1, h2⟩
    exact Finset.Subset.antisymm h1 h2
  · intro h
    exact ⟨h.le, h.ge⟩

/-- C7 counterexample: a Create plan with the non-empty declared member
set {A} still makes the current `TeamResource.Create` issue only the
create call — no add-members call of any kind follows. -/
theorem create_members_cex :
    (TeamPlan.mk "Dev Team" "" "OPEN" "" (some ["A"])).members = some ["A"] ∧
    (currentCreateCalls ⟨"Dev Team", "", "OPEN", "", some ["A"]⟩).filter
      ClientCall.isMemberCall = [] ∧
    currentCreateCalls ⟨"Dev Team", "", "OPEN", "", some ["A"]⟩ =
      [ClientCall.createTeam ⟨"Dev Team", "", "OPEN", ""⟩] :=
  ⟨rfl, rfl, rfl⟩

/-- C7 amended: in the legacy Create (part_009), when the declared
member set is non-null and non-empty, one `AddTeamMember` call per
declared member follows the create call, each failing addition is
reported as a warning (never a fatal error), and the team resource is
still saved into state as successfully created. -/
theorem legacy_create_members_warn (clientOrg : String)
    (plan : LegacyTeamPlan) (ms : List String) (teamId : String)
    (addFails : String → Bool) (hm : plan.members = some ms)
    (_hne : ms ≠ []) :
    (∀ a ∈ ms, ClientCall.legacyAddTeamMember teamId a ∈
      (legacyCreate clientOrg plan (some teamId) addFails).calls) ∧
    (legacyCreate clientOrg plan (some teamId) addFails).fatalErrors = [] ∧
    (legacyCreate clientOrg plan (some teamId) addFails).stateSaved = true ∧
    (∀ a ∈ ms, addFails a = true →
      ("Unable to add member " ++ a ++ " to team") ∈
        (legacyCreate clientOrg plan (some teamId) addFails).warnings) ∧
    (legacyCreate clientOrg plan (some teamId) addFails).calls.head? =
      some (ClientCall.legacyCreateTeam plan.name plan.description plan.ty
        (if plan.organization = "" then clientOrg else plan.organization)) := by
  simp only [legacyCreate, hm]
  refine ⟨?_, trivial, trivial, ?_, rfl⟩
  · intro a ha
    exact List.mem_cons_of_mem _ (List.mem_map_of_mem _ ha)
  · intro a ha hf
    exact List.mem_map_of_mem _ (List.mem_filter.mpr ⟨ha, hf⟩)

/-- Witness for the amended C7: with declared members {A, B} where the
addition of B fails, the add call for A is issued and B's failure
appears among the warnings, while the step stays successful. -/
theorem legacy_create_members_warn_witness :
    ClientCall.legacyAddTeamMember "T1" "A" ∈
      (legacyCreate "org" ⟨"n", "d", "OPEN", "", some ["A", "B"]⟩
        (some "T1") (fun a => a == "B")).calls ∧
    ("Unable to add member " ++ "B" ++ " to team") ∈
      (legacyCreate "org" ⟨"n", "d", "OPEN", "", some ["A", "B"]⟩
        (some "T1") (fun a => a == "B")).warnings ∧
    (legacyCreate "org" ⟨"n", "d", "OPEN", "", some ["A", "B"]⟩
      (some "T1") (fun a => a == "B")).stateSaved = true := by
  have h := legacy_create_members_warn "org"
    ⟨"n", "d", "OPEN", "", some ["A", "B"]⟩ ["A", "B"] "T1"
    (fun a => a == "B") rfl (by decide)
  exact ⟨h.1 "A" (by decide), h.2.2.2.1 "B" (by decide) (by decide), h.2.2.1⟩

/-- C8 evaluation: neither the schema nor Create checks the documented
length bounds.  A plan with an empty display name (length 0 < 1), a
251-character display name, or a 361-character description is still
turned into the create request and sent — no local rejection exists. -/
theorem create_no_length_validation :
    currentCreateCalls ⟨"", "d", "OPEN", "", none⟩ =
      [ClientCall.createTeam ⟨"", "d", "OPEN", ""⟩] ∧
    currentCreateCalls ⟨String.mk (List.replicate 251 'x'), "d", "OPEN", "", none⟩ =
      [ClientCall.createTeam ⟨String.mk (List.replicate 251 'x'), "d", "OPEN", ""⟩] ∧
    (String.mk (List.replicate 251 'x')).length = 251 ∧
    currentCreateCalls ⟨"n", String.mk (List.replicate 361 'y'), "OPEN", "", none⟩ =
      [ClientCall.createTeam ⟨"n", String.mk (List.replicate 361 'y'), "OPEN", ""⟩] ∧
    (String.mk (List.replicate 361 'y')).length = 361 := by
  refine ⟨rfl, rfl, ?_, rfl, ?_⟩ <;>
    rw [String.length_mk, List.length_replicate]

/-- C9: the list-teams `size` query parameter is `min s 300` for a
positive requested size and omitted otherwise; the fetch-members `first`
payload field is never sent above 50, the effective page size never
exceeds 50, and a non-positive request falls back to the API default of
50 by omitting the field. -/
theorem page_size_clamping (s f : Int) :
    getTeamsSizeParam s = (if 0 < s then some (min s 300) else none) ∧
    (∀ v ∈ fetchMembersFirstParam f, v ≤ 50) ∧
    fetchMembersEffectiveFirst f ≤ 50 ∧
    (f ≤ 0 → fetchMembersFirstParam f = none) := by
  refine ⟨?_, ?_, ?_, ?_⟩
  · by_cases h : 0 < s
    · by_cases h3 : s > 300 <;>
        simp [getTeamsSizeParam, h, h3, min_def] <;> omega
    · simp [getTeamsSizeParam, h]
  · intro v hv
    by_cases h : 0 < f ∧ f ≤ 50
    · simp [fetchMembersFirstParam, h] at hv
      omega
    · simp [fetchMembersFirstParam, h] at hv
  · by_cases h : 0 < f ∧ f ≤ 50
    · simp [fetchMembersEffectiveFirst, fetchMembersFirstParam, h, h.2]
    · simp [fetchMembersEffectiveFirst, fetchMembersFirstParam, h]
  · intro hf
    rw [fetchMembersFirstParam, if_neg]
    rintro ⟨h1, _⟩
    omega

/-- Witness for C9: a requested list size of 400 is clamped to 300, a
members page size of 70 still never exceeds 50 effectively, and a
negative members page size omits the field. -/
theorem page_size_clamping_witness :
    getTeamsSizeParam 400 = some 300 ∧
    fetchMembersEffectiveFirst 70 ≤ 50 ∧
    fetchMembersFirstParam (-3) = none := by
  refine ⟨(page_size_clamping 400 0).1.trans (by decide), ?_, ?_⟩
  · exact (page_size_clamping 0 70).2.2.1
  · exact (page_size_clamping 0 (-3)).2.2.2 (by decide)

/-- C10: the schema's team-type validator accepts a value exactly when
it is one of OPEN, MEMBER_INVITE, EXTERNAL or ORG_ADMIN_MANAGED; every
value outside that closed set is rejected by the declared validator. -/
theorem team_type_closed_enum (s : String) :
    teamTypeValid s = true ↔
      (s = "OPEN" ∨ s = "MEMBER_INVITE" ∨ s = "EXTERNAL" ∨
        s = "ORG_ADMIN_MANAGED") := by
  simp [teamTypeValid, teamTypeOneOf, List.contains]

/-- Witness for C10: OPEN passes the validator, CLOSED (a value from
the superseded enum) is rejected. -/
theorem team_type_closed_enum_witness :
    teamTypeValid "OPEN" = true ∧ ¬ teamTypeValid "CLOSED" = true := by
  constructor
  · exact (team_type_closed_enum "OPEN").mpr (Or.inl rfl)
  · intro h
    rcases (team_type_closed_enum "CLOSED").mp h with h | h | h | h <;>
      exact absurd h (by decide)

end Atlassian
